import Mathlib

/-
Verification development for the anime-pics repository (two React Native demo
apps: a receipt-scanning budget tracker and a photo-to-anime converter).

The TypeScript sources are shallowly embedded in Lean.  JavaScript numbers are
modelled as exact rationals (ℚ): every dollar amount handled by the apps is a
short decimal literal, on which the IEEE double representation used by the JS
engine is an order-preserving injection, so equality, ordering, deduplication
and range comparisons in the model coincide with the program.  JavaScript
strings are modelled as Lean String / List Char.  The platform key-value store
(AsyncStorage) is modelled as a map from keys to stored JSON values;
JSON.stringify / JSON.parse, the engine built-ins, form an exact inverse pair
between JSON values and their textual encoding, so persistence is modelled at
the JSON-value level.
-/

namespace AnimePics

/-- Character classes appearing in the four receipt-scanner patterns:
digits, JS whitespace, the class [\s:], literal characters, and
case-insensitive literal characters (for the i flag of pattern 4). -/
inductive RClass where
  | digit
  | space
  | spaceOrColon
  | lit (c : Char)
  | litCI (c : Char)

/-- JS whitespace class \s restricted to the code points that can occur in
receipt text (ASCII whitespace and NBSP). -/
def isJsSpace (c : Char) : Bool :=
  c == ' ' || c == '\t' || c == '\n' || c == '\r' ||
  c == Char.ofNat 11 || c == Char.ofNat 12 || c == Char.ofNat 160

/-- JS line terminators (relevant to the multiline anchors of pattern 3). -/
def isLineTerm (c : Char) : Bool :=
  c == '\n' || c == '\r' || c == Char.ofNat 0x2028 || c == Char.ofNat 0x2029

def RClass.matchesChar : RClass → Char → Bool
  | .digit, c => c.isDigit
  | .space, c => isJsSpace c
  | .spaceOrColon, c => isJsSpace c || c == ':'
  | .lit a, c => c == a
  | .litCI a, c => c.toLower == a.toLower

/-- Regular-expression terms, covering exactly the constructs used by the four
literal patterns in extractAmountsFromText: concatenation, ordered
alternation, greedy star, greedy bounded repetition, greedy option, one
capturing group, negative lookahead, and the multiline anchors of the m flag. -/
inductive Regex where
  | eps
  | cls (cl : RClass)
  | cat (r₁ r₂ : Regex)
  | alt (r₁ r₂ : Regex)
  | star (r : Regex)
  | rep (r : Regex) (lo hi : Nat)
  | opt (r : Regex)
  | group (r : Regex)
  | nla (r : Regex)
  | bol
  | eol

/-- Matcher state: current position and the span captured by group 1. -/
structure MState where
  pos : Nat
  grp : Option (Nat × Nat)

/-- Backtracking matcher in continuation-passing style, following the
ECMAScript matching semantics: alternation tries the left branch first,
quantifiers are greedy, a quantifier iteration that consumes nothing ends the
loop, negative lookahead consumes nothing, and the anchors are the multiline
ones.  The fuel argument bounds the depth of the continuation stack; it is
instantiated below with a bound that the patterns of this app never exhaust. -/
def mrun (cs : List Char) : Nat → Regex → MState → (MState → Option MState) → Option MState
  | 0, _, _, _ => none
  | fuel + 1, r, st, k =>
    match r with
    | .eps => k st
    | .cls cl =>
      match cs.get? st.pos with
      | some c => if cl.matchesChar c then k { st with pos := st.pos + 1 } else none
      | none => none
    | .cat r₁ r₂ => mrun cs fuel r₁ st (fun st₁ => mrun cs fuel r₂ st₁ k)
    | .alt r₁ r₂ =>
      match mrun cs fuel r₁ st k with
      | some res => some res
      | none => mrun cs fuel r₂ st k
    | .star r =>
      match mrun cs fuel r st (fun st₁ =>
          if st.pos < st₁.pos then mrun cs fuel (.star r) st₁ k else none) with
      | some res => some res
      | none => k st
    | .rep r lo hi =>
      match hi with
      | 0 => k st
      | hi' + 1 =>
        match lo with
        | 0 =>
          match mrun cs fuel r st (fun st₁ =>
              if st.pos < st₁.pos then mrun cs fuel (.rep r 0 hi') st₁ k else none) with
          | some res => some res
          | none => k st
        | lo' + 1 => mrun cs fuel r st (fun st₁ => mrun cs fuel (.rep r lo' hi') st₁ k)
    | .opt r =>
      match mrun cs fuel r st k with
      | some res => some res
      | none => k st
    | .group r =>
      mrun cs fuel r st (fun st₁ => k { st₁ with grp := some (st.pos, st₁.pos) })
    | .nla r =>
      match mrun cs fuel r st (fun st₁ => some st₁) with
      | some _ => none
      | none => k st
    | .bol =>
      if st.pos == 0 then k st
      else
        match cs.get? (st.pos - 1) with
        | some c => if isLineTerm c then k st else none
        | none => none
    | .eol =>
      if st.pos == cs.length then k st
      else
        match cs.get? st.pos with
        | some c => if isLineTerm c then k st else none
        | none => none

/-- Fuel bound for the matcher: an over-approximation of the continuation
depth of one attempt, where a bounded repetition contributes once per allowed
iteration and an unbounded star is accounted for by the per-character factor
at the call site. -/
def Regex.fuelSize : Regex → Nat
  | .eps => 1
  | .cls _ => 1
  | .cat a b => a.fuelSize + b.fuelSize + 1
  | .alt a b => a.fuelSize + b.fuelSize + 1
  | .star r => r.fuelSize + 2
  | .rep r _ hi => (hi + 1) * (r.fuelSize + 2) + 1
  | .opt r => r.fuelSize + 1
  | .group r => r.fuelSize + 1
  | .nla r => r.fuelSize + 1
  | .bol => 1
  | .eol => 1

/-- Attempt to match pat at position i of cs.  On success returns the end
position of the match and the span captured by group 1. -/
def matchAt (pat : Regex) (cs : List Char) (i : Nat) : Option (Nat × Option (Nat × Nat)) :=
  match mrun cs ((cs.length + 2) * (pat.fuelSize + 2)) pat { pos := i, grp := none }
      (fun st => some st) with
  | some st => some (st.pos, st.grp)
  | none => none

/-- Leftmost search: try successive start positions from i, as the ECMAScript
global-flag exec does from lastIndex. -/
def searchFrom (pat : Regex) (cs : List Char) : Nat → Nat → Option (Nat × Nat × Option (Nat × Nat))
  | _, 0 => none
  | i, tries + 1 =>
    match matchAt pat cs i with
    | some (e, g) => some (i, e, g)
    | none => searchFrom pat cs (i + 1) tries

def sliceChars (cs : List Char) (a b : Nat) : List Char := (cs.drop a).take (b - a)

/-- The while loop of the source: repeated pattern.exec(text) with the g flag,
collecting match[1] (the captured group) for every match and advancing
lastIndex to the end of each match.  lastIndex starts at 0 because the pattern
objects are created afresh inside extractAmountsFromText on every call.  All
four patterns only produce non-empty matches, so the fuel of one step per
character suffices. -/
def jsExecLoop (pat : Regex) (cs : List Char) : Nat → Nat → List (List Char)
  | _, 0 => []
  | lastIndex, fuel + 1 =>
    if cs.length < lastIndex then []
    else
      match searchFrom pat cs lastIndex (cs.length + 1 - lastIndex) with
      | none => []
      | some (_, e, g) =>
        let captured :=
          match g with
          | some (gs, ge) => sliceChars cs gs ge
          | none => []
        captured :: jsExecLoop pat cs e fuel

def jsExecAll (pat : Regex) (cs : List Char) : List (List Char) :=
  jsExecLoop pat cs 0 (cs.length + 1)

def digitsToNat (ds : List Char) : Nat :=
  ds.foldl (fun n c => n * 10 + (c.toNat - Char.toNat '0')) 0

/-- Exponent part of a JS number literal: e or E already consumed, optional
sign, digits; contributes nothing when no digits follow. -/
def expPartVal (s : List Char) : Int :=
  match s with
  | '-' :: rest =>
    if (rest.takeWhile Char.isDigit).isEmpty then 0
    else -(digitsToNat (rest.takeWhile Char.isDigit) : Int)
  | '+' :: rest =>
    if (rest.takeWhile Char.isDigit).isEmpty then 0
    else (digitsToNat (rest.takeWhile Char.isDigit) : Int)
  | _ =>
    if (s.takeWhile Char.isDigit).isEmpty then 0
    else (digitsToNat (s.takeWhile Char.isDigit) : Int)

/-- JS parseFloat: skip leading whitespace, then parse the longest prefix of
the form sign, integer digits, optional fraction, optional exponent.  Returns
none when no digits are found, which models the NaN result.  The value
sign * (int + frac / 10 ^ fracDigits) * 10 ^ exponent is assembled as one
exact rational through mkRat.  The Infinity forms never occur in this app and
are not modelled; NaN and the infinities are the only doubles without a
rational counterpart. -/
def parseFloatChars (s : List Char) : Option ℚ :=
  let s₁ := s.dropWhile (fun c => isJsSpace c)
  let signRest : Int × List Char :=
    match s₁ with
    | '-' :: rest => (-1, rest)
    | '+' :: rest => (1, rest)
    | _ => (1, s₁)
  let sign := signRest.1
  let s₂ := signRest.2
  let intPart := s₂.takeWhile Char.isDigit
  let s₃ := s₂.dropWhile Char.isDigit
  let fracRest : List Char × List Char :=
    match s₃ with
    | '.' :: rest => (rest.takeWhile Char.isDigit, rest.dropWhile Char.isDigit)
    | _ => ([], s₃)
  let fracPart := fracRest.1
  let s₄ := fracRest.2
  if intPart.isEmpty && fracPart.isEmpty then none
  else
    let mantissaNum : Int :=
      sign * (digitsToNat intPart * 10 ^ fracPart.length + digitsToNat fracPart)
    let e : Int :=
      match s₄ with
      | 'e' :: rest => expPartVal rest
      | 'E' :: rest => expPartVal rest
      | _ => 0
    if 0 ≤ e then
      some (mkRat (mantissaNum * 10 ^ e.toNat) (10 ^ fracPart.length))
    else
      some (mkRat mantissaNum (10 ^ fracPart.length * 10 ^ (-e).toNat))

def rlit (c : Char) : Regex := .cls (.lit c)

def rdigit : Regex := .cls .digit

def rdigits (lo hi : Nat) : Regex := .rep rdigit lo hi

def commaTriple : Regex := .cat (rlit ',') (rdigits 3 3)

/-- Case-insensitive literal word, for the i flag of pattern 4. -/
def ciWord (s : String) : Regex :=
  s.data.foldr (fun c acc => Regex.cat (.cls (.litCI c)) acc) .eps

/-- First source pattern, with flag g: dollar sign, then 1-3 digits, comma
groups, a dot and exactly two decimal digits, all captured. -/
def pattern1 : Regex :=
  .cat (rlit '$')
    (.group (.cat (rdigits 1 3) (.cat (.star commaTriple) (.cat (rlit '.') (rdigits 2 2)))))

/-- Second source pattern, with flag g: dollar sign, captured whole-dollar
digits with comma groups, then a negative lookahead refusing a dot followed by
a digit. -/
def pattern2 : Regex :=
  .cat (rlit '$')
    (.cat (.group (.cat (rdigits 1 3) (.star commaTriple)))
      (.nla (.cat (rlit '.') rdigit)))

/-- Third source pattern, with flags g and m: start of line or whitespace,
captured 1-4 digits with two decimals, then whitespace or end of line. -/
def pattern3 : Regex :=
  .cat (.alt .bol (.cls .space))
    (.cat (.group (.cat (rdigits 1 4) (.cat (rlit '.') (rdigits 2 2))))
      (.alt (.cls .space) .eol))

/-- Keyword alternation of the fourth pattern, in source order. -/
def keywordAlt : Regex :=
  .alt (ciWord "total") (.alt (ciWord "subtotal") (.alt (ciWord "amount") (ciWord "due")))

/-- Fourth source pattern, with flags g and i: a keyword, spaces or colons, an
optional dollar sign, then captured digits with comma groups, an optional dot
and up to two decimals. -/
def pattern4 : Regex :=
  .cat keywordAlt
    (.cat (.star (.cls .spaceOrColon))
      (.cat (.opt (rlit '$'))
        (.group (.cat (rdigits 1 4)
          (.cat (.star commaTriple) (.cat (.opt (rlit '.')) (rdigits 0 2)))))))

/-- The patterns array of extractAmountsFromText, in source order. -/
def patterns : List Regex := [pattern1, pattern2, pattern3, pattern4]

/-- amounts.add of the source: a JS Set keeps insertion order and ignores an
element already present. -/
def addCandidate (acc : List ℚ) (q : ℚ) : List ℚ :=
  if q ∈ acc then acc else acc ++ [q]

/-- Body of the source while loop for one match: strip commas from the
captured group, parseFloat it, and add it to the Set of candidates only when
it is a number strictly between 0 and 10000. -/
def considerMatch (acc : List ℚ) (m : List Char) : List ℚ :=
  match parseFloatChars (m.filter (fun c => !(c == ','))) with
  | none => acc
  | some numAmount => if 0 < numAmount ∧ numAmount < 10000 then addCandidate acc numAmount else acc

/-- Per-pattern part of the source loop: fold considerMatch over the captured
groups of all matches of one pattern. -/
def collectMatches (acc : List ℚ) (ms : List (List Char)) : List ℚ :=
  ms.foldl considerMatch acc

/-- Embedding of extractAmountsFromText: run the four freshly created global
patterns over the text, deduplicate the filtered amounts through the Set, and
sort the result descending, which is what Array.from(amounts).sort with the
comparator b - a produces. -/
def extractAmountsFromText (text : String) : List ℚ :=
  let cs := text.data
  let candidates := patterns.foldl (fun acc pat => collectMatches acc (jsExecAll pat cs)) []
  List.insertionSort (fun a b : ℚ => b ≤ a) candidates

/-- Amount field of a stored expense record as a JS value.  addExpense always
stores a number; null and undefined can stand in a record that was stored by
an earlier version or edited, and are the falsy cases handled by the
`|| 0` default in calculateTotal.  The number 0 is also falsy in JS. -/
inductive JAmount where
  | num (q : ℚ)
  | jnull
  | undef
deriving DecidableEq

/-- JS truthiness of an amount value. -/
def JAmount.isFalsy : JAmount → Bool
  | .num q => q == 0
  | .jnull => true
  | .undef => true

/-- JS `a || b` on amount values. -/
def jsOr (a b : JAmount) : JAmount := if a.isFalsy then b else a

/-- parseFloat applied to the result of `expense.amount || 0`: the argument is
coerced to a string and parsed back; for a finite JS number this round trip
returns the same number, and the non-number cases cannot reach this point
because `|| 0` already replaced the falsy ones. -/
def parseFloatOfAmount : JAmount → ℚ
  | .num q => q
  | .jnull => 0
  | .undef => 0

/-- An expense record as created by addExpense:
{id, amount, merchant, date, photo, extractedText}.  photo is the receipt
photo URI or null. -/
structure Expense where
  id : String
  amount : JAmount
  merchant : String
  date : String
  photo : Option String
  extractedText : String
deriving DecidableEq

/-- Embedding of calculateTotal: the reduce over the expense list, adding
parseFloat(expense.amount || 0) to the running sum, starting from 0. -/
def calculateTotal (expenseList : List Expense) : ℚ :=
  expenseList.foldl (fun sum expense => sum + parseFloatOfAmount (jsOr expense.amount (.num 0))) 0

/-- JSON values, as produced by JSON.parse and consumed by JSON.stringify. -/
inductive Json where
  | null
  | bool (b : Bool)
  | num (q : ℚ)
  | str (s : String)
  | arr (elems : List Json)
  | obj (fields : List (String × Json))

/-- Property access on a parsed JSON object. -/
def lookupField : List (String × Json) → String → Option Json
  | [], _ => none
  | (k, v) :: rest, key => if k = key then some v else lookupField rest key

/-- JSON.stringify of one expense record, at the JSON-value level: the object
literal of addExpense in source field order.  A JS number serializes as itself,
a null photo as null; an undefined amount is omitted by JSON.stringify, while
a null amount stays. -/
def encodeExpense (e : Expense) : Json :=
  let amountField : List (String × Json) :=
    match e.amount with
    | .num q => [("amount", .num q)]
    | .jnull => [("amount", .null)]
    | .undef => []
  let photoField : Json :=
    match e.photo with
    | some uri => .str uri
    | none => .null
  .obj ([("id", .str e.id)] ++ amountField ++
    [("merchant", .str e.merchant), ("date", .str e.date),
     ("photo", photoField), ("extractedText", .str e.extractedText)])

/-- Reading one parsed JSON object back into the expense shape, by the
property accesses the app performs on loaded records.  JSON.parse itself never
validates; a none result marks data that does not carry the record shape and
cannot have been produced by saveExpenses. -/
def decodeExpense (j : Json) : Option Expense :=
  match j with
  | .obj fields =>
    match lookupField fields "id", lookupField fields "merchant",
        lookupField fields "date", lookupField fields "extractedText" with
    | some (.str id), some (.str merchant), some (.str date), some (.str extractedText) =>
      let amountOpt : Option JAmount :=
        match lookupField fields "amount" with
        | none => some .undef
        | some .null => some .jnull
        | some (.num q) => some (.num q)
        | some _ => none
      let photoOpt : Option (Option String) :=
        match lookupField fields "photo" with
        | some .null => some none
        | some (.str uri) => some (some uri)
        | _ => none
      match amountOpt, photoOpt with
      | some amount, some photo =>
        some { id := id, amount := amount, merchant := merchant, date := date,
               photo := photo, extractedText := extractedText }
      | _, _ => none
    | _, _, _, _ => none
  | _ => none

/-- JSON.stringify of the whole expense list: an array of record objects. -/
def encodeExpenses (expenseList : List Expense) : Json :=
  .arr (expenseList.map encodeExpense)

def decodeExpenseList : List Json → Option (List Expense)
  | [] => some []
  | j :: rest =>
    match decodeExpense j, decodeExpenseList rest with
    | some e, some es => some (e :: es)
    | _, _ => none

/-- JSON.parse of the stored text followed by the element reads. -/
def decodeExpenses (j : Json) : Option (List Expense) :=
  match j with
  | .arr elems => decodeExpenseList elems
  | _ => none

/-- AsyncStorage modelled as a map from keys to stored JSON values; getItem of
an absent key is the null result.  JSON.stringify never produces the empty
string, so the truthiness test of loadExpenses fails exactly on the absent
key. -/
def Storage : Type := String → Option Json

/-- Embedding of saveExpenses: AsyncStorage.setItem of the stringified list
under the single key expenses. -/
def saveExpenses (storage : Storage) (expenseList : List Expense) : Storage :=
  fun key => if key = "expenses" then some (encodeExpenses expenseList) else storage key

/-- The component state touched by the modelled handlers. -/
structure AppState where
  receiptPhoto : Option String
  extractedText : String
  detectedAmounts : List ℚ
  selectedAmount : String
  merchant : String
  expenses : List Expense
  totalSpent : ℚ
  storage : Storage

/-- Embedding of loadExpenses: read the expenses key; when something truthy is
stored, parse it and set both the expense list and the recalculated total;
otherwise leave the state unchanged (also the behavior of the catch branch). -/
def loadExpenses (st : AppState) : AppState :=
  match st.storage "expenses" with
  | none => st
  | some stored =>
    match decodeExpenses stored with
    | some expenseList =>
      { st with expenses := expenseList, totalSpent := calculateTotal expenseList }
    | none => st

/-- Embedding of addExpense.  now is Date.now().toString(), today is the
locale date string, confirm tells whether the user presses Add in the
confirmation dialog.  The second component is the alert shown on the
invalid-amount path.  parseFloat of the empty string is already NaN, so
testing the parse result first coincides with the source condition
`!selectedAmount || isNaN(amount) || amount <= 0`. -/
def addExpense (st : AppState) (now today : String) (confirm : Bool) :
    AppState × Option String :=
  match parseFloatChars st.selectedAmount.data with
  | none => (st, some "Invalid Amount")
  | some amount =>
    if st.selectedAmount = "" ∨ amount ≤ 0 then (st, some "Invalid Amount")
    else
      let merchantName := if st.merchant = "" then "Unknown Merchant" else st.merchant
      if confirm then
        let newExpense : Expense :=
          { id := now, amount := .num amount, merchant := merchantName, date := today,
            photo := st.receiptPhoto, extractedText := st.extractedText }
        let updatedExpenses := st.expenses ++ [newExpense]
        ({ st with
            expenses := updatedExpenses,
            totalSpent := calculateTotal updatedExpenses,
            storage := saveExpenses st.storage updatedExpenses,
            receiptPhoto := none,
            extractedText := "",
            detectedAmounts := [],
            selectedAmount := "",
            merchant := "" }, none)
      else (st, none)

/-- Embedding of deleteExpense: filter out the records whose id equals the
given id, recalculate the total over the remaining records, and persist the
remaining records. -/
def deleteExpense (st : AppState) (expenseId : String) : AppState :=
  let updatedExpenses := st.expenses.filter (fun expense => expense.id != expenseId)
  { st with
      expenses := updatedExpenses,
      totalSpent := calculateTotal updatedExpenses,
      storage := saveExpenses st.storage updatedExpenses }

/-- Glossary shape of a persisted record: the stored JSON object carries the
amount, merchant name, date, photo reference and raw extracted text. -/
def isExpenseShape (j : Json) : Bool :=
  match j with
  | .obj fields =>
    (lookupField fields "amount").isSome && (lookupField fields "merchant").isSome &&
    (lookupField fields "date").isSome && (lookupField fields "photo").isSome &&
    (lookupField fields "extractedText").isSome
  | _ => false

/-- An expense list is well shaped when every record persists to a JSON object
of the glossary shape. -/
def WellShaped (expenseList : List Expense) : Prop :=
  ∀ e ∈ expenseList, isExpenseShape (encodeExpense e) = true

/-- One call of extractAmountsFromText per entry of a call sequence: the
pattern objects are local to the function body, so each call runs the g-flag
exec loops from lastIndex 0. -/
def extractCalls (texts : List String) : List (List ℚ) :=
  texts.map extractAmountsFromText

namespace Anime

/-- Tensor as built for the ONNX runtime: a dtype tag, flat data, dims. -/
structure Tensor where
  dtype : String
  data : List ℚ
  dims : List Nat

/-- The device file system, used only to state that the placeholder
preprocessing never reads the image file. -/
def FileSystem : Type := String → Option (List Nat)

/-- Embedding of preprocessImage: the placeholder builds a 1x3x224x224 tensor
whose entries are (Math.random() - 0.5) * 2, the random stream being modelled
by rng; the image file at imagePath is never opened, so the file system
parameter is unused by the body, exactly as in the source. -/
def preprocessImage (fs : FileSystem) (rng : Nat → ℚ) (imagePath : String) : Tensor :=
  let inputSize := 224
  let channels := 3
  let batchSize := 1
  let imageData := (List.range (batchSize * channels * inputSize * inputSize)).map
    (fun i => (rng i - 1 / 2) * 2)
  { dtype := "float32", data := imageData, dims := [batchSize, channels, inputSize, inputSize] }

/-- The loaded ONNX session: input and output names plus the opaque native
run call, modelled as a function from feeds to the results map. -/
structure Session where
  inputNames : List String
  outputNames : List String
  run : List (String × Tensor) → List (String × Tensor)

/-- Embedding of processImageWithAI: fail when no session is loaded, feed the
preprocessed tensor under inputNames[0] (or the fallback name), read the
output under outputNames[0] (or the first result key), fail when it is
absent, and otherwise return the original imagePath as the placeholder
result. -/
def processImageWithAI (session : Option Session) (fs : FileSystem) (rng : Nat → ℚ)
    (imagePath : String) : Except String String :=
  match session with
  | none => .error "AI model not loaded"
  | some s =>
    let inputTensor := preprocessImage fs rng imagePath
    let inputName := s.inputNames.headD "input"
    let feeds := [(inputName, inputTensor)]
    let results := s.run feeds
    let outputName :=
      match s.outputNames.head? with
      | some n => n
      | none => (results.map Prod.fst).headD ""
    match results.lookup outputName with
    | none => .error "No output received from model"
    | some _ => .ok imagePath

end Anime

section SortAndSetLemmas

instance : IsTotal ℚ (fun a b : ℚ => b ≤ a) := ⟨fun a b => le_total b a⟩

instance : IsTrans ℚ (fun a b : ℚ => b ≤ a) := ⟨fun _ _ _ h₁ h₂ => le_trans h₂ h₁⟩

lemma nodup_addCandidate (acc : List ℚ) (q : ℚ) (h : acc.Nodup) : (addCandidate acc q).Nodup := by
  unfold addCandidate
  split_ifs with hq
  · exact h
  · refine List.Nodup.append h (List.nodup_singleton q) ?_
    intro a ha haq
    rw [List.mem_singleton] at haq
    exact hq (haq ▸ ha)

lemma mem_addCandidate {acc : List ℚ} {q x : ℚ} (h : x ∈ addCandidate acc q) :
    x ∈ acc ∨ x = q := by
  unfold addCandidate at h
  split_ifs at h
  · exact Or.inl h
  · rcases List.mem_append.mp h with h' | h'
    · exact Or.inl h'
    · exact Or.inr (List.mem_singleton.mp h')

lemma nodup_considerMatch (acc : List ℚ) (m : List Char) (h : acc.Nodup) :
    (considerMatch acc m).Nodup := by
  unfold considerMatch
  cases hpf : parseFloatChars (m.filter (fun c => !(c == ','))) with
  | none => exact h
  | some q =>
    dsimp only
    split_ifs with hr
    · exact nodup_addCandidate _ _ h
    · exact h

lemma mem_considerMatch {acc : List ℚ} {m : List Char} {x : ℚ}
    (h : x ∈ considerMatch acc m) : x ∈ acc ∨ (0 < x ∧ x < 10000) := by
  unfold considerMatch at h
  revert h
  cases hpf : parseFloatChars (m.filter (fun c => !(c == ','))) with
  | none => exact fun h => Or.inl h
  | some q =>
    dsimp only
    split_ifs with hr
    · intro h
      rcases mem_addCandidate h with h' | h'
      · exact Or.inl h'
      · exact Or.inr (h' ▸ hr)
    · exact fun h => Or.inl h

lemma nodup_collectFoldl : ∀ (ms : List (List Char)) (acc : List ℚ), acc.Nodup →
    (List.foldl considerMatch acc ms).Nodup
  | [], _, h => h
  | m :: ms, acc, h => by
    rw [List.foldl_cons]
    exact nodup_collectFoldl ms _ (nodup_considerMatch acc m h)

lemma mem_collectFoldl : ∀ (ms : List (List Char)) (acc : List ℚ) (x : ℚ),
    x ∈ List.foldl considerMatch acc ms → x ∈ acc ∨ (0 < x ∧ x < 10000)
  | [], _, _, h => Or.inl h
  | m :: ms, acc, x, h => by
    rw [List.foldl_cons] at h
    rcases mem_collectFoldl ms _ x h with h' | h'
    · exact mem_considerMatch h'
    · exact Or.inr h'

lemma nodup_patternsFoldl : ∀ (ps : List Regex) (cs : List Char) (acc : List ℚ), acc.Nodup →
    (ps.foldl (fun acc pat => collectMatches acc (jsExecAll pat cs)) acc).Nodup
  | [], _, _, h => h
  | p :: ps, cs, acc, h => by
    rw [List.foldl_cons]
    exact nodup_patternsFoldl ps cs _ (nodup_collectFoldl (jsExecAll p cs) acc h)

lemma mem_patternsFoldl : ∀ (ps : List Regex) (cs : List Char) (acc : List ℚ) (x : ℚ),
    x ∈ ps.foldl (fun acc pat => collectMatches acc (jsExecAll pat cs)) acc →
    x ∈ acc ∨ (0 < x ∧ x < 10000)
  | [], _, _, _, h => Or.inl h
  | p :: ps, cs, acc, x, h => by
    rw [List.foldl_cons] at h
    rcases mem_patternsFoldl ps cs _ x h with h' | h'
    · exact mem_collectFoldl (jsExecAll p cs) acc x h'
    · exact Or.inr h'

end SortAndSetLemmas

/-- C1: for every input text, the list returned by extractAmountsFromText is
strictly decreasing: the candidate amounts are deduplicated through the Set
before the final descending sort, so the sorted output is pairwise strictly
decreasing and in particular free of duplicates. -/
theorem extractAmountsFromText_strictDesc (text : String) :
    List.Pairwise (fun a b : ℚ => b < a) (extractAmountsFromText text) := by
  have hdef : extractAmountsFromText text
      = List.insertionSort (fun a b : ℚ => b ≤ a)
        (patterns.foldl (fun acc pat => collectMatches acc (jsExecAll pat text.data))
          ([] : List ℚ)) := rfl
  rw [hdef]
  have hnd : (patterns.foldl (fun acc pat => collectMatches acc (jsExecAll pat text.data))
      ([] : List ℚ)).Nodup :=
    nodup_patternsFoldl patterns text.data [] List.nodup_nil
  have hsorted := List.sorted_insertionSort (fun a b : ℚ => b ≤ a)
    (patterns.foldl (fun acc pat => collectMatches acc (jsExecAll pat text.data)) ([] : List ℚ))
  have hnd' : (List.insertionSort (fun a b : ℚ => b ≤ a)
      (patterns.foldl (fun acc pat => collectMatches acc (jsExecAll pat text.data))
        ([] : List ℚ))).Nodup :=
    ((List.perm_insertionSort (fun a b : ℚ => b ≤ a) _).nodup_iff).mpr hnd
  exact List.Pairwise.imp₂ (fun a b hle hne => lt_of_le_of_ne hle (Ne.symm hne)) hsorted hnd'

/-- C2: every amount returned by extractAmountsFromText is strictly greater
than 0 and strictly less than 10000; matches whose parsed value is NaN, zero,
negative or at least 10000 never enter the candidate Set. -/
theorem extractAmountsFromText_inRange (text : String) :
    ∀ q ∈ extractAmountsFromText text, 0 < q ∧ q < 10000 := by
  intro q hq
  have hdef : extractAmountsFromText text
      = List.insertionSort (fun a b : ℚ => b ≤ a)
        (patterns.foldl (fun acc pat => collectMatches acc (jsExecAll pat text.data))
          ([] : List ℚ)) := rfl
  rw [hdef, List.mem_insertionSort] at hq
  rcases mem_patternsFoldl patterns text.data [] q hq with h | h
  · cases h
  · exact h

/-- Witness for C2, at a concrete receipt text and the amount found there. -/
theorem extractAmountsFromText_inRange_witness :
    (5 : ℚ) ∈ extractAmountsFromText "$5.00" ∧ 0 < (5 : ℚ) ∧ (5 : ℚ) < 10000 :=
  ⟨by decide, extractAmountsFromText_inRange "$5.00" 5 (by decide)⟩

/-- C5: extractAmountsFromText is deterministic and stateless per call: in any
sequence of calls, two calls that receive the same text return the same list,
since each call rebuilds the pattern objects and runs their exec loops from
lastIndex 0. -/
theorem extractCalls_deterministic (ts : List String) (i j : Nat)
    (h : ts[i]? = ts[j]?) :
    (extractCalls ts)[i]? = (extractCalls ts)[j]? := by
  unfold extractCalls
  rw [List.getElem?_map, List.getElem?_map, h]

/-- Witness for C5: the second of two identical calls returns what the first
returned. -/
theorem extractCalls_deterministic_witness :
    ((["TOTAL $4.50", "TOTAL $4.50"] : List String)[0]?
      = (["TOTAL $4.50", "TOTAL $4.50"] : List String)[1]?)
    ∧ (extractCalls ["TOTAL $4.50", "TOTAL $4.50"])[0]?
      = (extractCalls ["TOTAL $4.50", "TOTAL $4.50"])[1]? :=
  ⟨rfl, extractCalls_deterministic ["TOTAL $4.50", "TOTAL $4.50"] 0 1 rfl⟩

section TotalLemmas

lemma contribution_num (q : ℚ) : parseFloatOfAmount (jsOr (.num q) (.num 0)) = q := by
  by_cases h : q = 0
  · subst h; rfl
  · simp [jsOr, JAmount.isFalsy, parseFloatOfAmount, h]

lemma contribution_falsy (a : JAmount) (h : a.isFalsy = true) :
    parseFloatOfAmount (jsOr a (.num 0)) = 0 := by
  simp [jsOr, h, parseFloatOfAmount]

lemma foldl_contribution : ∀ (es : List Expense) (a : ℚ),
    es.foldl (fun sum e => sum + parseFloatOfAmount (jsOr e.amount (.num 0))) a
      = a + (es.map (fun e => parseFloatOfAmount (jsOr e.amount (.num 0)))).sum
  | [], a => by simp
  | e :: es, a => by
    rw [List.foldl_cons, foldl_contribution es, List.map_cons, List.sum_cons]
    ring

lemma calculateTotal_eq_sum (es : List Expense) :
    calculateTotal es = (es.map (fun e => parseFloatOfAmount (jsOr e.amount (.num 0)))).sum := by
  unfold calculateTotal
  rw [foldl_contribution]
  ring

lemma map_contribution : ∀ (es : List Expense) (qs : List ℚ),
    es.map (fun e => e.amount) = qs.map JAmount.num →
    es.map (fun e => parseFloatOfAmount (jsOr e.amount (.num 0))) = qs
  | [], [], _ => rfl
  | [], _ :: _, h => by simp at h
  | _ :: _, [], h => by simp at h
  | e :: es, q :: qs, h => by
    simp only [List.map_cons, List.cons.injEq] at h
    obtain ⟨h1, h2⟩ := h
    simp only [List.map_cons, List.cons.injEq]
    exact ⟨by rw [h1, contribution_num], map_contribution es qs h2⟩

end TotalLemmas

/-- C3: on records with numeric amounts, calculateTotal is exactly the sum of
the amount fields, each record contributing once. -/
theorem calculateTotal_sums_amounts (es : List Expense) (qs : List ℚ)
    (h : es.map (fun e => e.amount) = qs.map JAmount.num) :
    calculateTotal es = qs.sum := by
  rw [calculateTotal_eq_sum, map_contribution es qs h]

/-- Witness for C3 on a concrete one-record list. -/
theorem calculateTotal_sums_amounts_witness :
    (([{ id := "1", amount := JAmount.num 7, merchant := "Shop", date := "1/1/2026",
           photo := none, extractedText := "t" }] : List Expense).map (fun e => e.amount)
      = ([7] : List ℚ).map JAmount.num)
    ∧ calculateTotal [{ id := "1", amount := JAmount.num 7, merchant := "Shop",
                        date := "1/1/2026", photo := none, extractedText := "t" }]
      = ([7] : List ℚ).sum :=
  ⟨rfl, calculateTotal_sums_amounts _ _ rfl⟩

/-- C10: calculateTotal is total, yields 0 on the empty list, and a record
whose amount is missing, null or otherwise falsy contributes 0 through the
`|| 0` default instead of making the computation fail. -/
theorem calculateTotal_safe (l₁ l₂ : List Expense) (e : Expense)
    (h : e.amount.isFalsy = true) :
    calculateTotal ([] : List Expense) = 0
    ∧ calculateTotal (l₁ ++ e :: l₂) = calculateTotal (l₁ ++ l₂) := by
  refine ⟨rfl, ?_⟩
  rw [calculateTotal_eq_sum, calculateTotal_eq_sum]
  simp [contribution_falsy e.amount h]

/-- Witness for C10 at a record with a null amount. -/
theorem calculateTotal_safe_witness :
    (JAmount.isFalsy (JAmount.jnull) = true)
    ∧ calculateTotal ([] : List Expense) = 0
    ∧ calculateTotal ([] ++ { id := "1", amount := JAmount.jnull, merchant := "m",
                              date := "d", photo := none, extractedText := "t" } :: [])
      = calculateTotal ([] ++ []) :=
  ⟨rfl, calculateTotal_safe [] []
    { id := "1", amount := JAmount.jnull, merchant := "m", date := "d", photo := none,
      extractedText := "t" } rfl⟩

section RoundTripLemmas

lemma decodeExpense_encodeExpense (e : Expense) : decodeExpense (encodeExpense e) = some e := by
  obtain ⟨id, amount, merchant, date, photo, extractedText⟩ := e
  cases amount <;> cases photo <;> rfl

lemma decodeExpenseList_map (es : List Expense) :
    decodeExpenseList (es.map encodeExpense) = some es := by
  induction es with
  | nil => rfl
  | cons e es ih => simp [decodeExpenseList, decodeExpense_encodeExpense, ih]

lemma decodeExpenses_encodeExpenses (es : List Expense) :
    decodeExpenses (encodeExpenses es) = some es := by
  unfold decodeExpenses encodeExpenses
  exact decodeExpenseList_map es

lemma loadExpenses_after_save (st : AppState) (es : List Expense) :
    (loadExpenses { st with storage := saveExpenses st.storage es }).expenses = es
    ∧ (loadExpenses { st with storage := saveExpenses st.storage es }).totalSpent
        = calculateTotal es := by
  have hs : (saveExpenses st.storage es) "expenses" = some (encodeExpenses es) := by
    unfold saveExpenses
    rw [if_pos rfl]
  unfold loadExpenses
  simp [hs, decodeExpenses_encodeExpenses]

end RoundTripLemmas

/-- C4: persistence round trip: saving any expense list with saveExpenses and
loading with loadExpenses restores an equal list (and the recalculated total),
the stringify and parse steps being exact inverses on the stored value under
the single expenses key. -/
theorem saveExpenses_loadExpenses_roundTrip (st : AppState) (es : List Expense) :
    (loadExpenses { st with storage := saveExpenses st.storage es }).expenses = es
    ∧ (loadExpenses { st with storage := saveExpenses st.storage es }).totalSpent
        = calculateTotal es
    ∧ decodeExpenses (encodeExpenses es) = some es :=
  ⟨(loadExpenses_after_save st es).1, (loadExpenses_after_save st es).2,
   decodeExpenses_encodeExpenses es⟩

/-- C8: deleteExpense removes exactly the records with the given id, keeps
every other record with its relative order (the remaining list is a sublist of
the original), and recomputes both the total and the persisted list from the
remaining records only. -/
theorem deleteExpense_frame (st : AppState) (expenseId : String) :
    (∀ e ∈ (deleteExpense st expenseId).expenses, e.id ≠ expenseId)
    ∧ (∀ e ∈ st.expenses, e.id ≠ expenseId → e ∈ (deleteExpense st expenseId).expenses)
    ∧ (deleteExpense st expenseId).expenses.Sublist st.expenses
    ∧ (deleteExpense st expenseId).expenses
        = st.expenses.filter (fun e => e.id != expenseId)
    ∧ (deleteExpense st expenseId).totalSpent
        = calculateTotal (st.expenses.filter (fun e => e.id != expenseId))
    ∧ (deleteExpense st expenseId).storage "expenses"
        = some (encodeExpenses (st.expenses.filter (fun e => e.id != expenseId))) := by
  refine ⟨?_, ?_, ?_, rfl, rfl, ?_⟩
  · intro e he
    have he' : e ∈ st.expenses.filter (fun e => e.id != expenseId) := he
    rw [List.mem_filter] at he'
    simpa using he'.2
  · intro e he hne
    show e ∈ st.expenses.filter (fun e => e.id != expenseId)
    rw [List.mem_filter]
    exact ⟨he, by simpa using hne⟩
  · exact List.filter_sublist st.expenses
  · show saveExpenses st.storage (st.expenses.filter (fun e => e.id != expenseId)) "expenses" = _
    unfold saveExpenses
    rw [if_pos rfl]

/-- Record removed by the concrete delete-expense witness. -/
def droppedExpense : Expense :=
  { id := "1", amount := JAmount.num 5, merchant := "A", date := "d", photo := none,
    extractedText := "" }

/-- Record kept by the concrete delete-expense witness. -/
def keptExpense : Expense :=
  { id := "2", amount := JAmount.num 3, merchant := "B", date := "d", photo := none,
    extractedText := "" }

/-- Expense list used by the concrete delete-expense witness. -/
def stDelete : AppState :=
  { receiptPhoto := none, extractedText := "", detectedAmounts := [], selectedAmount := "",
    merchant := "", totalSpent := 8, expenses := [droppedExpense, keptExpense],
    storage := fun _ => none }

/-- Witness for C8: a record with a different id survives deleteExpense. -/
theorem deleteExpense_frame_witness :
    keptExpense ∈ stDelete.expenses ∧ keptExpense.id ≠ "1"
    ∧ keptExpense ∈ (deleteExpense stDelete "1").expenses :=
  ⟨by decide, by decide, (deleteExpense_frame stDelete "1").2.1 keptExpense (by decide) (by decide)⟩

section AddExpenseLemmas

lemma addExpense_expenses_cases (st : AppState) (now today : String) (confirm : Bool) :
    ((addExpense st now today confirm).1).expenses = st.expenses
    ∨ ∃ a : ℚ, ((addExpense st now today confirm).1).expenses
        = st.expenses ++
          [{ id := now, amount := JAmount.num a,
             merchant := if st.merchant = "" then "Unknown Merchant" else st.merchant,
             date := today, photo := st.receiptPhoto, extractedText := st.extractedText }] := by
  unfold addExpense
  cases hpa : parseFloatChars st.selectedAmount.data with
  | none => left; simp only [hpa]
  | some a =>
    simp only [hpa]
    by_cases hg : st.selectedAmount = "" ∨ a ≤ 0
    · left; rw [if_pos hg]
    · rw [if_neg hg]
      cases confirm with
      | false => left; simp
      | true => right; exact ⟨a, by simp⟩

lemma isExpenseShape_encode_num (id : String) (a : ℚ) (m d : String) (p : Option String)
    (t : String) :
    isExpenseShape (encodeExpense
      { id := id, amount := JAmount.num a, merchant := m, date := d, photo := p,
        extractedText := t }) = true := by
  cases p <;> rfl

end AddExpenseLemmas

/-- C6: the record appended by addExpense persists to a JSON object carrying
the glossary fields (amount, merchant, date, photo reference, raw extracted
text), and the add, delete, save and load operations keep every stored record
in that shape. -/
theorem expenseShape_invariant (st : AppState) (now today expenseId : String) (confirm : Bool)
    (hw : WellShaped st.expenses) :
    WellShaped ((addExpense st now today confirm).1).expenses
    ∧ WellShaped (deleteExpense st expenseId).expenses
    ∧ WellShaped (loadExpenses { st with storage := saveExpenses st.storage st.expenses }).expenses
    ∧ (∀ e ∈ ((addExpense st now today confirm).1).expenses,
        e ∈ st.expenses ∨ isExpenseShape (encodeExpense e) = true) := by
  have hadd : ∀ e ∈ ((addExpense st now today confirm).1).expenses,
      e ∈ st.expenses ∨ isExpenseShape (encodeExpense e) = true := by
    intro e he
    rcases addExpense_expenses_cases st now today confirm with hc | ⟨a, hc⟩
    · rw [hc] at he
      exact Or.inl he
    · rw [hc] at he
      rcases List.mem_append.mp he with h' | h'
      · exact Or.inl h'
      · right
        rw [List.mem_singleton] at h'
        subst h'
        exact isExpenseShape_encode_num _ _ _ _ _ _
  refine ⟨?_, ?_, ?_, hadd⟩
  · intro e he
    rcases hadd e he with h | h
    · exact hw e h
    · exact h
  · intro e he
    have he' : e ∈ st.expenses := List.mem_of_mem_filter he
    exact hw e he'
  · intro e he
    have hr := (loadExpenses_after_save st st.expenses).1
    rw [hr] at he
    exact hw e he

/-- Stored record of the concrete shape-invariant witness. -/
def shapeExpense : Expense :=
  { id := "1", amount := JAmount.num 7, merchant := "Shop", date := "d", photo := none,
    extractedText := "t" }

/-- State used by the concrete shape-invariant witness. -/
def stShape : AppState :=
  { receiptPhoto := some "p.jpg", extractedText := "receipt text", detectedAmounts := [],
    selectedAmount := "3.50", merchant := "Cafe", totalSpent := 7,
    expenses := [shapeExpense], storage := fun _ => none }

/-- Witness for C6 at a concrete state with one well-shaped stored record. -/
theorem expenseShape_invariant_witness :
    WellShaped stShape.expenses
    ∧ WellShaped ((addExpense stShape "9" "2/2/2026" true).1).expenses :=
  ⟨by unfold WellShaped; decide,
   (expenseShape_invariant stShape "9" "2/2/2026" "1" true (by unfold WellShaped; decide)).1⟩

/-- C9: when the selected amount is empty, unparsable or non-positive,
addExpense reports the invalid-amount alert and leaves the whole state, in
particular the expense list, the persisted storage and the total, unchanged. -/
theorem addExpense_invalidAmount (st : AppState) (now today : String) (confirm : Bool)
    (h : st.selectedAmount = "" ∨ parseFloatChars st.selectedAmount.data = none
      ∨ ∃ a, parseFloatChars st.selectedAmount.data = some a ∧ a ≤ 0) :
    addExpense st now today confirm = (st, some "Invalid Amount")
    ∧ ((addExpense st now today confirm).1).expenses = st.expenses
    ∧ ((addExpense st now today confirm).1).totalSpent = st.totalSpent
    ∧ ((addExpense st now today confirm).1).storage = st.storage := by
  have hmain : addExpense st now today confirm = (st, some "Invalid Amount") := by
    unfold addExpense
    cases hpa : parseFloatChars st.selectedAmount.data with
    | none => rfl
    | some a =>
      have hg : st.selectedAmount = "" ∨ a ≤ 0 := by
        rcases h with h | h | ⟨b, hb, hle⟩
        · exact Or.inl h
        · rw [h] at hpa
          cases hpa
        · rw [hb] at hpa
          injection hpa with heq
          exact Or.inr (heq ▸ hle)
      simp only [if_pos hg]
  exact ⟨hmain, by rw [hmain], by rw [hmain], by rw [hmain]⟩

/-- State used by the concrete invalid-amount witness: the empty selected
amount. -/
def stInvalid : AppState :=
  { receiptPhoto := none, extractedText := "", detectedAmounts := [], selectedAmount := "",
    merchant := "", totalSpent := 0, expenses := [], storage := fun _ => none }

/-- Witness for C9 at the empty selected amount. -/
theorem addExpense_invalidAmount_witness :
    stInvalid.selectedAmount = ""
    ∧ addExpense stInvalid "9" "2/2/2026" true = (stInvalid, some "Invalid Amount") :=
  ⟨rfl, (addExpense_invalidAmount stInvalid "9" "2/2/2026" true (Or.inl rfl)).1⟩

lemma processImageWithAI_some (s : Anime.Session) (fs : Anime.FileSystem) (rng : Nat → ℚ)
    (imagePath : String) :
    Anime.processImageWithAI (some s) fs rng imagePath
        = Except.error "No output received from model"
    ∨ Anime.processImageWithAI (some s) fs rng imagePath = Except.ok imagePath := by
  unfold Anime.processImageWithAI
  dsimp only
  split
  · exact Or.inl rfl
  · exact Or.inr rfl

/-- C7: the anime-converter inference pipeline is a placeholder: the input
tensor built by preprocessImage is independent of the device file system, so
in particular of the content of the image file at imagePath (and even of the
path itself), and a successful processImageWithAI returns its input path
unchanged. -/
theorem animePipeline_placeholder (fs₁ fs₂ : Anime.FileSystem) (rng : Nat → ℚ)
    (session : Option Anime.Session) (imagePath imagePath₂ out : String) :
    Anime.preprocessImage fs₁ rng imagePath = Anime.preprocessImage fs₂ rng imagePath
    ∧ Anime.preprocessImage fs₁ rng imagePath = Anime.preprocessImage fs₁ rng imagePath₂
    ∧ (Anime.processImageWithAI session fs₁ rng imagePath = Except.ok out → out = imagePath) := by
  refine ⟨rfl, rfl, ?_⟩
  intro hok
  cases session with
  | none =>
    unfold Anime.processImageWithAI at hok
    cases hok
  | some s =>
    rcases processImageWithAI_some s fs₁ rng imagePath with h | h
    · rw [h] at hok
      cases hok
    · rw [h] at hok
      injection hok with heq
      exact heq.symm

/-- Session used by the concrete anime-pipeline witness. -/
def sessionW : Anime.Session :=
  { inputNames := ["input1"], outputNames := ["out"],
    run := fun _ => [("out", { dtype := "float32", data := [], dims := [] })] }

/-- Witness for C7: a successful run on a concrete session returns the
original path. -/
theorem animePipeline_placeholder_witness :
    Anime.processImageWithAI (some sessionW) (fun _ => none) (fun _ => 0) "photo.jpg"
      = Except.ok "photo.jpg"
    ∧ ("photo.jpg" : String) = "photo.jpg" :=
  ⟨rfl, (animePipeline_placeholder (fun _ => none) (fun _ => none) (fun _ => 0)
    (some sessionW) "photo.jpg" "photo.jpg" "photo.jpg").2.2 rfl⟩

end AnimePics
